import Mathlib

/-!
Verification development for the forseti-security instance-network-tag
scanning core: the rules engine
(`google/cloud/security/scanner/audit/instance_network_tag_rules_engine.py`)
and the scanner's flattening stage
(`google/cloud/security/scanner/scanners/instance_network_tags_scanner.py`).

Python dictionaries with a fixed key set are embedded as structures, the
insertion-ordered `resource_rules_map` as an association list, generators as
functions returning the list of yielded values paired with an optional error
(the exception that escaped the generator, if any), and `raise` as
`Except.error`.
-/

/-- Modelled from the spec: `escape_and_globify` from
`google.cloud.security.common.util.regex_util` is not part of the source
sample.  Per the spec's Pattern Matcher contract the compiled matcher is the
anchored interpretation of the glob itself, so compilation carries the glob
string through unchanged and all matching semantics live in `globMatch`. -/
def escape_and_globify (s : String) : String := s

/-- Modelled from the spec: anchored glob matching over the whole input.
The glob alphabet is `*` (matches any substring, including the empty one) and
literal characters matched exactly, case-sensitively: `*` consumes an
arbitrary (possibly empty) leading piece of the input, so it matches exactly
when the rest of the glob matches some suffix of the input. -/
def globMatch : List Char → List Char → Bool
  | [], s => s.isEmpty
  | c :: pr, s =>
    if c = '*' then s.tails.any (fun t => globMatch pr t)
    else
      match s with
      | [] => false
      | x :: sr => c == x && globMatch pr sr

/-- Modelled from the spec: `Matcher.matches` applied to a compiled glob. -/
def matchesGlob (pat s : String) : Bool := globMatch pat.data s.data

/-- All ways of splitting `l` as `before ++ pat ++ after`, listed with the
leftmost occurrence of `pat` first; `acc` is the reversed text already
scanned past. -/
def splitsOnAux (pat : List Char) : List Char → List Char → List (List Char × List Char)
  | acc, [] =>
    if pat.isPrefixOf ([] : List Char) then [(acc.reverse, ([] : List Char))] else []
  | acc, c :: ls =>
    (if pat.isPrefixOf (c :: ls) then [(acc.reverse, (c :: ls).drop pat.length)] else [])
      ++ splitsOnAux pat (c :: acc) ls

def splitsOn (pat l : List Char) : List (List Char × List Char) := splitsOnAux pat [] l

/-- The suffix `.*networks/([^/]*)` of the extraction regex, applied to `t`:
the greedy `.*` (which cannot cross a newline) selects the last usable
occurrence of `networks/`, and group 2 is the run of non-`/` characters
following it. -/
def matchTail (t : List Char) : Option (List Char) :=
  match ((splitsOn ("networks/".data) t).filter (fun pr => !pr.1.contains '\n')).getLast? with
  | none => none
  | some pr => some (pr.2.takeWhile (fun c => c != '/'))

/-- The part `([^/]*).*networks/([^/]*)` after the literal `/projects/`:
group 1 is a greedy run of non-`/` characters, backtracking one character at
a time if the tail cannot match after it. -/
def matchAfterProjects (t : List Char) : Option (List Char × List Char) :=
  let run := t.takeWhile (fun c => c != '/')
  let rest := t.dropWhile (fun c => c != '/')
  ((List.range (run.length + 1)).reverse).findSome? (fun k =>
    (matchTail (run.drop k ++ rest)).map (fun n => (run.take k, n)))

/-- The part `.*(/projects/)...` after the literal `compute/`: the greedy
`.*` (no newline) tries the last occurrence of `/projects/` first and
backtracks to earlier ones. -/
def matchAfterCompute (t : List Char) : Option (List Char × List Char) :=
  (((splitsOn ("/projects/".data) t).filter (fun pr => !pr.1.contains '\n')).reverse).findSome?
    (fun pr => matchAfterProjects pr.2)

/-- `re.search(r'compute/.*/projects/([^/]*).*networks/([^/]*)', s)` from
`Rule.find_violations`, returning `(group 1, group 2)`: the search tries each
occurrence of the leading literal `compute/` from the left. -/
def extractNetworkProject (s : String) : Option (String × String) :=
  ((splitsOn ("compute/".data) s.data).findSome? (fun pr => matchAfterCompute pr.2)).map
    (fun pn => (String.mk pn.1, String.mk pn.2))

/-- One record of the batch handed to `Rule.find_violations` (an
`InstanceNetworkTag` object); `as_json` holds the output of its `as_json()`
method, opaque to the engine. -/
structure InstanceNetworkTag where
  project_id : String
  network : String
  tags : List String
  instance_name : String
  as_json : String
deriving DecidableEq, Repr

/-- The `RuleViolation` namedtuple. -/
structure RuleViolation where
  resource_type : String
  rule_name : Option String
  rule_index : Nat
  violation_type : String
  project : String
  network : String
  tags : List String
  instance_name : String
  raw_data : String
deriving DecidableEq, Repr

/-- The `rule_def_resource` dictionary stored inside a compiled `Rule`. -/
structure RuleResource where
  whitelist : List String
  blacklist : List String
  project_id : String
  network : String
deriving DecidableEq, Repr

/-- The compiled `Rule`. -/
structure Rule where
  rule_name : Option String
  rule_index : Nat
  rules : RuleResource
deriving DecidableEq, Repr

/-- One entry of the parsed rules document, as consumed by `add_rule`:
`.get` on the absent keys gives `none` for `name`, `project_id`, `network`
and `[]` for the two lists. -/
structure RuleDef where
  name : Option String
  project_id : Option String
  network : Option String
  whitelist : List String
  blacklist : List String
deriving DecidableEq, Repr

/-- The parsed rules document: `rule_defs.get('rules', [])`. -/
structure RuleDefsDoc where
  rules : List RuleDef
deriving DecidableEq, Repr

/-- The scope test of `Rule.find_violations`:
`re.match(self.rules['network'], network) and
re.match(self.rules['project_id'], project_id)`. -/
def Rule.scopeApplies (r : Rule) (network project_id : String) : Bool :=
  matchesGlob r.rules.network network && matchesGlob r.rules.project_id project_id

/-- The tag test of `Rule.find_violations`:
`any(t in blacklist for t in tags) or
any(t not in whitelist for t in tags if whitelist)`. -/
def Rule.tagsViolate (r : Rule) (tags : List String) : Bool :=
  tags.any (fun t => r.rules.blacklist.contains t) ||
    (!r.rules.whitelist.isEmpty && tags.any (fun t => !r.rules.whitelist.contains t))

/-- The `RuleViolation` value yielded by `Rule.find_violations` for one
offending record. -/
def Rule.mkViolation (r : Rule) (rec : InstanceNetworkTag) (network : String) : RuleViolation :=
  { resource_type := "instance",
    rule_name := r.rule_name,
    rule_index := r.rule_index,
    violation_type := "INSTANCE_NETWORK_TAG_VIOLATION",
    project := rec.project_id,
    network := network,
    tags := rec.tags,
    instance_name := rec.instance_name,
    raw_data := rec.as_json }

/-- `Rule.find_violations`: walks the batch, extracts the network name from
each record's composite path, tests scope and the tag lists, and yields a
violation per offending record.  Returns the yielded violations together
with the exception, if one escaped: a record whose path has no regex match
makes `network_and_project.group(2)` fail with an `AttributeError`, which
ends the generator.  (`tags or []` in the source only replaces a missing
tag list by the empty one, which the record type already guarantees.) -/
def Rule.find_violations (r : Rule) : List InstanceNetworkTag → List RuleViolation × Option String
  | [] => ([], none)
  | rec :: rest =>
    match extractNetworkProject rec.network with
    | none => ([], some "AttributeError")
    | some (_, network) =>
      let tail := r.find_violations rest
      if r.scopeApplies network rec.project_id then
        if r.tagsViolate rec.tags then
          (r.mkViolation rec network :: tail.1, tail.2)
        else tail
      else tail

/-- Whether `add_rule` rejects a definition: `(not whitelist and not
blacklist) or (project_id is None) or (network is None)`. -/
def faultyRuleDef (d : RuleDef) : Bool :=
  (d.whitelist.isEmpty && d.blacklist.isEmpty) || d.project_id.isNone || d.network.isNone

/-- `InstanceNetworkTagRuleBook.resource_rules_map`, a dictionary keyed by
rule index, kept in insertion order. -/
structure InstanceNetworkTagRuleBook where
  resource_rules_map : List (Nat × Rule)
deriving DecidableEq, Repr

/-- `self.resource_rules_map.get(rule_index)`. -/
def InstanceNetworkTagRuleBook.lookupRule (book : InstanceNetworkTagRuleBook)
    (rule_index : Nat) : Option Rule :=
  (book.resource_rules_map.find? (fun p => p.1 == rule_index)).map Prod.snd

/-- `InstanceNetworkTagRuleBook.add_rule`: validates the definition (raising
`InvalidRulesSchemaError` for a faulty one), compiles it, and stores it
under `rule_index` unless that index already holds a rule. -/
def InstanceNetworkTagRuleBook.add_rule (book : InstanceNetworkTagRuleBook)
    (rule_def : RuleDef) (rule_index : Nat) : Except String InstanceNetworkTagRuleBook :=
  match rule_def.project_id, rule_def.network with
  | some pid, some net =>
    if rule_def.whitelist.isEmpty && rule_def.blacklist.isEmpty then
      Except.error "InvalidRulesSchemaError: Faulty rule"
    else
      let rule : Rule :=
        { rule_name := rule_def.name,
          rule_index := rule_index,
          rules := { whitelist := rule_def.whitelist,
                     blacklist := rule_def.blacklist,
                     project_id := escape_and_globify pid,
                     network := escape_and_globify net } }
      match book.lookupRule rule_index with
      | some _ => Except.ok book
      | none =>
        Except.ok { resource_rules_map := book.resource_rules_map ++ [(rule_index, rule)] }
  | _, _ => Except.error "InvalidRulesSchemaError: Faulty rule"

/-- The `enumerate` loop of `InstanceNetworkTagRuleBook.add_rules`, starting
from index `i`: the first schema error ends the call, leaving the book as
mutated so far. -/
def InstanceNetworkTagRuleBook.add_rules_from (book : InstanceNetworkTagRuleBook) :
    List RuleDef → Nat → InstanceNetworkTagRuleBook × Option String
  | [], _ => (book, none)
  | d :: ds, i =>
    match book.add_rule d i with
    | Except.error e => (book, some e)
    | Except.ok b2 => b2.add_rules_from ds (i + 1)

/-- `InstanceNetworkTagRuleBook.add_rules`. -/
def InstanceNetworkTagRuleBook.add_rules (book : InstanceNetworkTagRuleBook)
    (rule_defs : RuleDefsDoc) : InstanceNetworkTagRuleBook × Option String :=
  book.add_rules_from rule_defs.rules 0

/-- The `InstanceNetworkTagRuleBook` constructor: starts from an empty map
and runs `add_rules` on the parsed definitions. -/
def buildBook (rule_defs : RuleDefsDoc) : InstanceNetworkTagRuleBook × Option String :=
  InstanceNetworkTagRuleBook.add_rules ⟨[]⟩ rule_defs

/-- `InstanceNetworkTagRuleBook.get_resource_rules`: the map's values. -/
def InstanceNetworkTagRuleBook.get_resource_rules
    (book : InstanceNetworkTagRuleBook) : List Rule :=
  book.resource_rules_map.map Prod.snd

/-- Consuming the `itertools.chain` built by `find_policy_violations`: each
rule's generator runs over the whole batch; an exception escaping one
generator ends consumption of the chain. -/
def chainFindViolations : List Rule → List InstanceNetworkTag → List RuleViolation × Option String
  | [], _ => ([], none)
  | r :: rs, recs =>
    match r.find_violations recs with
    | (vs, some e) => (vs, some e)
    | (vs, none) =>
      let tail := chainFindViolations rs recs
      (vs ++ tail.1, tail.2)

/-- The rules-engine object: the parsed content of its rules file (what
`_load_rule_definitions` returns) and the current rule book. -/
structure InstanceNetworkTagRulesEngine where
  rule_defs : RuleDefsDoc
  rule_book : Option InstanceNetworkTagRuleBook
deriving DecidableEq, Repr

/-- `InstanceNetworkTagRulesEngine.build_rule_book`: replaces the engine's
rule book with one built from the definitions; a schema error propagates
and leaves the engine unchanged. -/
def InstanceNetworkTagRulesEngine.build_rule_book (e : InstanceNetworkTagRulesEngine) :
    Except String (InstanceNetworkTagRuleBook × InstanceNetworkTagRulesEngine) :=
  match buildBook e.rule_defs with
  | (b, none) => Except.ok (b, { e with rule_book := some b })
  | (_, some err) => Except.error err

/-- `InstanceNetworkTagRulesEngine.find_policy_violations`: rebuilds the
book when absent or when `force_rebuild` is set, then chains every rule's
violations over the batch. -/
def InstanceNetworkTagRulesEngine.find_policy_violations
    (e : InstanceNetworkTagRulesEngine) (instance_network_tag : List InstanceNetworkTag)
    (force_rebuild : Bool) :
    Except String ((List RuleViolation × Option String) × InstanceNetworkTagRulesEngine) :=
  match e.rule_book, force_rebuild with
  | some book, false =>
    Except.ok (chainFindViolations book.get_resource_rules instance_network_tag, e)
  | _, _ =>
    (e.build_rule_book).map (fun p =>
      (chainFindViolations p.1.get_resource_rules instance_network_tag, p.2))

/-- The nested `violation_data` dictionary built by `_flatten_violations`. -/
structure FlatViolationData where
  project : String
  network : String
  tags : List String
  instance_name : String
  raw_data : String
deriving DecidableEq, Repr

/-- The flat dictionary yielded by `_flatten_violations` per violation. -/
structure FlatViolation where
  resource_id : String
  resource_type : String
  rule_index : Nat
  rule_name : Option String
  violation_type : String
  violation_data : FlatViolationData
deriving DecidableEq, Repr

/-- `InstanceNetworkTagsScanner._flatten_violations`. -/
def flatten_violations : List RuleViolation → List FlatViolation
  | [] => []
  | violation :: rest =>
    let violation_data : FlatViolationData :=
      { project := violation.project,
        network := violation.network,
        tags := violation.tags,
        instance_name := violation.instance_name,
        raw_data := violation.raw_data }
    { resource_id := violation.instance_name,
      resource_type := violation.resource_type,
      rule_index := violation.rule_index,
      rule_name := violation.rule_name,
      violation_type := violation.violation_type,
      violation_data := violation_data } :: flatten_violations rest

/-! ## Concrete sample data

Fixtures mirroring the worked example in the `add_rule` docstring: a rule
blacklisting `reserved-tag` on network `net-1` of any project, a conforming
record carrying that tag, and a record whose composite network path does not
match the extraction pattern. -/

def sampleRule : Rule :=
  { rule_name := some "reserved network tags",
    rule_index := 0,
    rules := { whitelist := [],
               blacklist := ["reserved-tag"],
               project_id := "*",
               network := "net-1" } }

def sampleRec : InstanceNetworkTag :=
  { project_id := "p1",
    network := "https://www.googleapis.com/compute/v1/projects/p1/global/networks/net-1",
    tags := ["reserved-tag", "x"],
    instance_name := "inst-1",
    as_json := "raw-json" }

def badPathRec : InstanceNetworkTag :=
  { project_id := "p1",
    network := "no-structural-path-here",
    tags := ["reserved-tag"],
    instance_name := "inst-2",
    as_json := "raw-json" }

def sampleBook : InstanceNetworkTagRuleBook := ⟨[(0, sampleRule)]⟩

def sampleRuleDef : RuleDef :=
  { name := some "reserved network tags",
    project_id := some "*",
    network := some "net-1",
    whitelist := [],
    blacklist := ["reserved-tag"] }

def faultyRuleDefSample : RuleDef :=
  { name := some "missing scope",
    project_id := none,
    network := some "net-1",
    whitelist := ["ok"],
    blacklist := [] }

def sampleDoc : RuleDefsDoc := ⟨[sampleRuleDef, faultyRuleDefSample]⟩

def sampleViolation : RuleViolation := sampleRule.mkViolation sampleRec "net-1"

/-! ## Supporting lemmas -/

lemma globMatch_nil (s : List Char) : globMatch [] s = s.isEmpty := by rw [globMatch]

lemma globMatch_star (pr : List Char) (s : List Char) :
    globMatch ('*' :: pr) s = s.tails.any (fun t => globMatch pr t) := by
  rw [globMatch.eq_def]; simp

lemma globMatch_lit {c : Char} (hc : c ≠ '*') (pr s : List Char) :
    globMatch (c :: pr) s =
      match s with
      | [] => false
      | x :: sr => c == x && globMatch pr sr := by
  rw [globMatch.eq_def]; simp [hc]

lemma globMatch_star_all (s : List Char) : globMatch ['*'] s = true := by
  rw [globMatch_star]
  simp only [List.any_eq_true]
  exact ⟨[], (List.mem_tails _ _).mpr (List.nil_suffix), by simp [globMatch_nil]⟩

lemma globMatch_no_star {pat : List Char} (hp : '*' ∉ pat) :
    ∀ s : List Char, (globMatch pat s = true ↔ pat = s) := by
  induction pat with
  | nil => intro s; cases s <;> simp [globMatch_nil]
  | cons c pr ih =>
    intro s
    have hc : c ≠ '*' := fun h => hp (h ▸ List.mem_cons_self _ _)
    have hp2 : '*' ∉ pr := fun h => hp (List.mem_cons_of_mem _ h)
    rw [globMatch_lit hc]
    cases s with
    | nil => simp
    | cons x sr => simp [ih hp2 sr, beq_iff_eq]

lemma tagsViolate_iff (r : Rule) (tags : List String) :
    r.tagsViolate tags = true ↔
      (∃ t ∈ tags, t ∈ r.rules.blacklist) ∨
        (r.rules.whitelist ≠ [] ∧ ∃ t ∈ tags, t ∉ r.rules.whitelist) := by
  simp [Rule.tagsViolate, List.any_eq_true, List.elem_iff, List.isEmpty_iff]

lemma mem_find_violations {r : Rule} {recs : List InstanceNetworkTag} {v : RuleViolation}
    (hv : v ∈ (r.find_violations recs).1) :
    ∃ rec ∈ recs, ∃ n : String,
      (extractNetworkProject rec.network).map Prod.snd = some n ∧
      r.scopeApplies n rec.project_id = true ∧ r.tagsViolate rec.tags = true ∧
      v = r.mkViolation rec n := by
  induction recs with
  | nil => simp [Rule.find_violations] at hv
  | cons rec rest ih =>
    rw [Rule.find_violations] at hv
    cases hx : extractNetworkProject rec.network with
    | none => rw [hx] at hv; simp at hv
    | some pn =>
      obtain ⟨pj, n⟩ := pn
      rw [hx] at hv
      simp only at hv
      split at hv
      · split at hv
        · rcases List.mem_cons.mp hv with h | h
          · exact ⟨rec, List.mem_cons_self _ _, n, by rw [hx]; rfl, by assumption,
              by assumption, h⟩
          · obtain ⟨rec2, hm, n2, h1, h2, h3, h4⟩ := ih h
            exact ⟨rec2, List.mem_cons_of_mem _ hm, n2, h1, h2, h3, h4⟩
        · obtain ⟨rec2, hm, n2, h1, h2, h3, h4⟩ := ih hv
          exact ⟨rec2, List.mem_cons_of_mem _ hm, n2, h1, h2, h3, h4⟩
      · obtain ⟨rec2, hm, n2, h1, h2, h3, h4⟩ := ih hv
        exact ⟨rec2, List.mem_cons_of_mem _ hm, n2, h1, h2, h3, h4⟩

lemma find_violations_length (r : Rule) (recs : List InstanceNetworkTag) :
    (r.find_violations recs).1.length ≤ recs.length := by
  induction recs with
  | nil => simp [Rule.find_violations]
  | cons rec rest ih =>
    rw [Rule.find_violations]
    cases hx : extractNetworkProject rec.network with
    | none => simp
    | some pn =>
      obtain ⟨pj, n⟩ := pn
      simp only
      split
      · split
        · simpa using Nat.succ_le_succ ih
        · exact Nat.le_succ_of_le ih
      · exact Nat.le_succ_of_le ih

lemma mem_chainFindViolations {rules : List Rule} {recs : List InstanceNetworkTag}
    {v : RuleViolation} (hv : v ∈ (chainFindViolations rules recs).1) :
    ∃ r ∈ rules, v ∈ (r.find_violations recs).1 := by
  induction rules with
  | nil => simp [chainFindViolations] at hv
  | cons r rs ih =>
    rw [chainFindViolations] at hv
    cases hfv : r.find_violations recs with
    | mk vs e =>
      rw [hfv] at hv
      cases e with
      | some err =>
        simp only at hv
        exact ⟨r, List.mem_cons_self _ _, by rw [hfv]; exact hv⟩
      | none =>
        simp only at hv
        rcases List.mem_append.mp hv with h | h
        · exact ⟨r, List.mem_cons_self _ _, by rw [hfv]; exact h⟩
        · obtain ⟨r2, hm, h2⟩ := ih h
          exact ⟨r2, List.mem_cons_of_mem _ hm, h2⟩

lemma chainFindViolations_length (rules : List Rule) (recs : List InstanceNetworkTag) :
    (chainFindViolations rules recs).1.length ≤ rules.length * recs.length := by
  induction rules with
  | nil => simp [chainFindViolations]
  | cons r rs ih =>
    rw [chainFindViolations]
    cases hfv : r.find_violations recs with
    | mk vs e =>
      have hlen : vs.length ≤ recs.length := by
        have := find_violations_length r recs
        rw [hfv] at this
        exact this
      cases e with
      | some err =>
        simp only [List.length_cons, Nat.succ_mul]
        exact le_trans hlen (Nat.le_add_left _ _)
      | none =>
        simp only [List.length_cons, Nat.succ_mul, List.length_append]
        omega

lemma add_rule_error_iff (book : InstanceNetworkTagRuleBook) (d : RuleDef) (i : Nat) :
    (∃ e, book.add_rule d i = Except.error e) ↔ faultyRuleDef d = true := by
  unfold InstanceNetworkTagRuleBook.add_rule faultyRuleDef
  cases hp : d.project_id with
  | none => simp
  | some pid =>
    cases hn : d.network with
    | none => simp
    | some net =>
      simp only
      by_cases hw : d.whitelist.isEmpty && d.blacklist.isEmpty
      · simp [hw]
      · rw [if_neg hw]
        simp only [hw, Bool.false_or, Option.isNone_some, Bool.or_false]
        cases book.lookupRule i <;> simp

lemma add_rule_ok_map {book : InstanceNetworkTagRuleBook} {d : RuleDef} {i : Nat}
    {b2 : InstanceNetworkTagRuleBook} (h : book.add_rule d i = Except.ok b2) :
    b2 = book ∨
      ∃ r : Rule, r.rule_index = i ∧ r.rule_name = d.name ∧
        b2.resource_rules_map = book.resource_rules_map ++ [(i, r)] := by
  unfold InstanceNetworkTagRuleBook.add_rule at h
  cases hp : d.project_id with
  | none => rw [hp] at h; exact absurd h (by simp)
  | some pid =>
    cases hn : d.network with
    | none => rw [hp, hn] at h; exact absurd h (by simp)
    | some net =>
      rw [hp, hn] at h
      simp only at h
      split at h
      · exact absurd h (by simp)
      · cases hl : book.lookupRule i with
        | some r0 =>
          rw [hl] at h
          simp only [Except.ok.injEq] at h
          exact Or.inl h.symm
        | none =>
          rw [hl] at h
          simp only [Except.ok.injEq] at h
          exact Or.inr ⟨⟨d.name, i, ⟨d.whitelist, d.blacklist, escape_and_globify pid, escape_and_globify net⟩⟩, rfl, rfl, by rw [← h]⟩

lemma add_rule_ok_of_not_faulty (book : InstanceNetworkTagRuleBook) {d : RuleDef} (i : Nat)
    (hd : faultyRuleDef d = false) : ∃ b2, book.add_rule d i = Except.ok b2 := by
  cases hab : book.add_rule d i with
  | ok b2 => exact ⟨b2, rfl⟩
  | error e =>
    have := (add_rule_error_iff book d i).mp ⟨e, hab⟩
    rw [hd] at this
    cases this

lemma add_rule_faulty_of_error {book : InstanceNetworkTagRuleBook} {d : RuleDef} {i : Nat}
    {e : String} (h : book.add_rule d i = Except.error e) : faultyRuleDef d = true :=
  (add_rule_error_iff book d i).mp ⟨e, h⟩

lemma add_rules_from_mem {ds : List RuleDef} :
    ∀ {book : InstanceNetworkTagRuleBook} {i0 : Nat} {p : Nat × Rule},
      p ∈ ((book.add_rules_from ds i0).1).resource_rules_map →
      p ∈ book.resource_rules_map ∨
        ∃ k d, ds.get? k = some d ∧ p.1 = i0 + k ∧
          p.2.rule_index = i0 + k ∧ p.2.rule_name = d.name := by
  induction ds with
  | nil =>
    intro book i0 p hp
    rw [InstanceNetworkTagRuleBook.add_rules_from] at hp
    exact Or.inl hp
  | cons d ds ih =>
    intro book i0 p hp
    rw [InstanceNetworkTagRuleBook.add_rules_from] at hp
    cases hab : book.add_rule d i0 with
    | error e =>
      rw [hab] at hp
      exact Or.inl hp
    | ok b2 =>
      rw [hab] at hp
      rcases ih hp with h | ⟨k, d2, hg, h1, h2, h3⟩
      · rcases add_rule_ok_map hab with rfl | ⟨r, hr1, hr2, hr3⟩
        · exact Or.inl h
        · rw [hr3] at h
          rcases List.mem_append.mp h with h | h
          · exact Or.inl h
          · simp only [List.mem_singleton] at h
            subst h
            exact Or.inr ⟨0, d, rfl, by simp, by simp [hr1], hr2⟩
      · exact Or.inr ⟨k + 1, d2, hg, by omega, by omega, h3⟩

lemma add_rules_from_error {ds : List RuleDef} :
    ∀ {book : InstanceNetworkTagRuleBook} {i0 : Nat},
      ((book.add_rules_from ds i0).2).isSome = true →
      ∃ k, k < ds.length ∧
        (book.add_rules_from ds i0).1 = (book.add_rules_from (ds.take k) i0).1 ∧
        (book.add_rules_from (ds.take k) i0).2 = none ∧
        ∃ d, ds.get? k = some d ∧ faultyRuleDef d = true := by
  induction ds with
  | nil =>
    intro book i0 h
    rw [InstanceNetworkTagRuleBook.add_rules_from] at h
    simp at h
  | cons d ds ih =>
    intro book i0 h
    rw [InstanceNetworkTagRuleBook.add_rules_from] at h
    cases hab : book.add_rule d i0 with
    | error e =>
      refine ⟨0, by simp, ?_, by simp [InstanceNetworkTagRuleBook.add_rules_from], d, rfl,
        add_rule_faulty_of_error hab⟩
      rw [InstanceNetworkTagRuleBook.add_rules_from, hab]
      simp [InstanceNetworkTagRuleBook.add_rules_from]
    | ok b2 =>
      rw [hab] at h
      obtain ⟨k, hk, he1, he2, d2, hg, hf⟩ := ih h
      refine ⟨k + 1, by simpa using Nat.succ_lt_succ hk, ?_, ?_, d2, by simpa using hg, hf⟩
      · rw [InstanceNetworkTagRuleBook.add_rules_from, hab]
        rw [List.take_succ_cons, InstanceNetworkTagRuleBook.add_rules_from, hab]
        exact he1
      · rw [List.take_succ_cons, InstanceNetworkTagRuleBook.add_rules_from, hab]
        exact he2

/-! ## Claims -/

/-- C1: for a record whose network path yields an extracted network, the
rule yields a violation for it exactly when both scope patterns match and
either some tag is blacklisted or the whitelist is non-empty and some tag is
outside it; in particular no violation is yielded when a scope pattern does
not match. -/
theorem claim_c1 (r : Rule) (rec : InstanceNetworkTag) (n : String)
    (h : (extractNetworkProject rec.network).map Prod.snd = some n) :
    (r.find_violations [rec]).1 ≠ [] ↔
      ((matchesGlob r.rules.network n = true ∧
        matchesGlob r.rules.project_id rec.project_id = true) ∧
       ((∃ t ∈ rec.tags, t ∈ r.rules.blacklist) ∨
        (r.rules.whitelist ≠ [] ∧ ∃ t ∈ rec.tags, t ∉ r.rules.whitelist))) := by
  have hx2 : ∃ pj, extractNetworkProject rec.network = some (pj, n) := by
    cases hx : extractNetworkProject rec.network with
    | none => rw [hx] at h; simp at h
    | some pn =>
      obtain ⟨pj, n2⟩ := pn
      rw [hx] at h
      simp only [Option.map_some'] at h
      injection h with h2
      exact ⟨pj, by rw [h2]⟩
  obtain ⟨pj, hx⟩ := hx2
  by_cases hs : r.scopeApplies n rec.project_id = true
  · by_cases ht : r.tagsViolate rec.tags = true
    · have hv : (r.find_violations [rec]).1 = [r.mkViolation rec n] := by
        rw [Rule.find_violations, hx]
        simp [Rule.find_violations, hs, ht]
      have hsc := hs
      simp only [Rule.scopeApplies, Bool.and_eq_true] at hsc
      simp [hv, hsc.1, hsc.2, (tagsViolate_iff r rec.tags).mp ht]
    · have hv : (r.find_violations [rec]).1 = [] := by
        rw [Rule.find_violations, hx]
        simp [Rule.find_violations, hs, ht]
      rw [tagsViolate_iff] at ht
      simp [hv, ht]
  · have hv : (r.find_violations [rec]).1 = [] := by
      rw [Rule.find_violations, hx]
      simp [Rule.find_violations, hs]
    have hns : ¬(matchesGlob r.rules.network n = true ∧
        matchesGlob r.rules.project_id rec.project_id = true) := by
      intro hc
      exact hs (by simp [Rule.scopeApplies, hc.1, hc.2])
    simp [hv, hns]

theorem claim_c1_witness : (sampleRule.find_violations [sampleRec]).1 ≠ [] :=
  (claim_c1 sampleRule sampleRec "net-1" (by decide)).mpr (by decide)

/-- C4: the compiled scope matcher is anchored over the whole input: the
glob `*` matches every string including the empty one, and a literal glob
such as `net-1` matches exactly the string `net-1` itself (so no proper
superstring or substring, and matching is case-sensitive). -/
theorem claim_c4 :
    (∀ s : String, matchesGlob "*" s = true) ∧
    (∀ s : String, matchesGlob "net-1" s = true ↔ s = "net-1") := by
  constructor
  · intro s
    exact globMatch_star_all s.data
  · intro s
    have hns : '*' ∉ ("net-1" : String).data := by decide
    rw [matchesGlob, globMatch_no_star hns s.data, String.ext_iff]
    exact eq_comm

/-- C10: every violation yielded by `Rule.find_violations` carries the
constant resource type `instance` and the constant violation type
`INSTANCE_NETWORK_TAG_VIOLATION` (singular `TAG`). -/
theorem claim_c10 (r : Rule) (recs : List InstanceNetworkTag) :
    ∀ v ∈ (r.find_violations recs).1,
      v.resource_type = "instance" ∧
      v.violation_type = "INSTANCE_NETWORK_TAG_VIOLATION" := by
  intro v hv
  obtain ⟨rec, _, n, _, _, _, hveq⟩ := mem_find_violations hv
  subst hveq
  exact ⟨rfl, rfl⟩

theorem claim_c10_witness :
    sampleViolation.resource_type = "instance" ∧
    sampleViolation.violation_type = "INSTANCE_NETWORK_TAG_VIOLATION" :=
  claim_c10 sampleRule [sampleRec] sampleViolation (by decide)

/-- C5: adding a valid definition under an index that already holds a
compiled rule leaves the rule book unchanged and raises no error, so the
first rule stored under an index wins. -/
theorem claim_c5 (book : InstanceNetworkTagRuleBook) (d : RuleDef) (i : Nat) (r0 : Rule)
    (h : book.lookupRule i = some r0)
    (hd : ¬(d.project_id = none ∨ d.network = none ∨
      (d.whitelist = [] ∧ d.blacklist = []))) :
    book.add_rule d i = Except.ok book := by
  push_neg at hd
  obtain ⟨hp, hn, hwb⟩ := hd
  obtain ⟨pid, hpid⟩ := Option.ne_none_iff_exists'.mp hp
  obtain ⟨net, hnet⟩ := Option.ne_none_iff_exists'.mp hn
  unfold InstanceNetworkTagRuleBook.add_rule
  rw [hpid, hnet]
  have hemp : (d.whitelist.isEmpty && d.blacklist.isEmpty) = false := by
    rcases Decidable.em (d.whitelist = []) with hw | hw
    · simp [List.isEmpty_iff, hwb hw]
    · simp [List.isEmpty_iff, hw]
  simp only [hemp, Bool.false_eq_true, if_false, h]

theorem claim_c5_witness : sampleBook.add_rule sampleRuleDef 0 = Except.ok sampleBook :=
  claim_c5 sampleBook sampleRuleDef 0 sampleRule (by decide) (by decide)

lemma faultyRuleDef_iff (d : RuleDef) :
    faultyRuleDef d = true ↔
      d.project_id = none ∨ d.network = none ∨
        (d.whitelist = [] ∧ d.blacklist = []) := by
  simp [faultyRuleDef, List.isEmpty_iff, Option.isNone_iff_eq_none]
  tauto

/-- C3: `add_rule` raises a rules-schema error exactly when the definition
is missing `project_id`, or missing `network`, or has both lists empty; and
when an `add_rules` batch hits a faulty definition, the call stops with the
error while the book keeps exactly the rules added from the definitions
before the faulty one. -/
theorem claim_c3 :
    (∀ (book : InstanceNetworkTagRuleBook) (d : RuleDef) (i : Nat),
        (∃ e, book.add_rule d i = Except.error e) ↔
          (d.project_id = none ∨ d.network = none ∨
            (d.whitelist = [] ∧ d.blacklist = []))) ∧
    (∀ (book : InstanceNetworkTagRuleBook) (doc : RuleDefsDoc),
        ((book.add_rules doc).2).isSome = true →
          ∃ k, k < doc.rules.length ∧
            (book.add_rules doc).1 = (book.add_rules ⟨doc.rules.take k⟩).1 ∧
            (book.add_rules ⟨doc.rules.take k⟩).2 = none ∧
            ∃ d, doc.rules.get? k = some d ∧
              (d.project_id = none ∨ d.network = none ∨
                (d.whitelist = [] ∧ d.blacklist = []))) := by
  constructor
  · intro book d i
    exact (add_rule_error_iff book d i).trans (faultyRuleDef_iff d)
  · intro book doc h
    obtain ⟨k, hk, he1, he2, d, hg, hf⟩ := add_rules_from_error h
    exact ⟨k, hk, he1, he2, d, hg, (faultyRuleDef_iff d).mp hf⟩

theorem claim_c3_witness :
    ∃ k, k < sampleDoc.rules.length ∧
      ((⟨[]⟩ : InstanceNetworkTagRuleBook).add_rules sampleDoc).1 =
        ((⟨[]⟩ : InstanceNetworkTagRuleBook).add_rules ⟨sampleDoc.rules.take k⟩).1 ∧
      ((⟨[]⟩ : InstanceNetworkTagRuleBook).add_rules ⟨sampleDoc.rules.take k⟩).2 = none ∧
      ∃ d, sampleDoc.rules.get? k = some d ∧
        (d.project_id = none ∨ d.network = none ∨
          (d.whitelist = [] ∧ d.blacklist = [])) :=
  claim_c3.2 ⟨[]⟩ sampleDoc (by decide)

/-- C6: with a rule book of N rules and a batch of M records, a successful
`find_policy_violations` call yields at most N×M violations, and every
emitted violation carries the complete tag list of one of the records. -/
theorem claim_c6 (doc : RuleDefsDoc) (book : InstanceNetworkTagRuleBook)
    (recs : List InstanceNetworkTag) (res : List RuleViolation × Option String)
    (e2 : InstanceNetworkTagRulesEngine)
    (h : (InstanceNetworkTagRulesEngine.mk doc (some book)).find_policy_violations recs false =
      Except.ok (res, e2)) :
    res.1.length ≤ book.resource_rules_map.length * recs.length ∧
    ∀ v ∈ res.1, ∃ rec ∈ recs, v.tags = rec.tags := by
  unfold InstanceNetworkTagRulesEngine.find_policy_violations at h
  simp only [Except.ok.injEq, Prod.mk.injEq] at h
  obtain ⟨hres, _⟩ := h
  subst hres
  constructor
  · have := chainFindViolations_length book.get_resource_rules recs
    rwa [InstanceNetworkTagRuleBook.get_resource_rules, List.length_map] at this
  · intro v hv
    obtain ⟨r, _, hvf⟩ := mem_chainFindViolations hv
    obtain ⟨rec, hm, n, _, _, _, hveq⟩ := mem_find_violations hvf
    exact ⟨rec, hm, by rw [hveq]; rfl⟩

theorem claim_c6_witness :
    (chainFindViolations sampleBook.get_resource_rules [sampleRec]).1.length ≤
      sampleBook.resource_rules_map.length * [sampleRec].length ∧
    ∀ v ∈ (chainFindViolations sampleBook.get_resource_rules [sampleRec]).1,
      ∃ rec ∈ [sampleRec], v.tags = rec.tags :=
  claim_c6 ⟨[]⟩ sampleBook [sampleRec] _ _ rfl

/-- C7: in a rule book built from a definitions list, every violation's
`rule_index` is the 0-based position of its originating rule in that list:
the definition found at `rule_index` is the one the violation's rule was
compiled from. -/
theorem claim_c7 (doc : RuleDefsDoc) (recs : List InstanceNetworkTag)
    (res : List RuleViolation × Option String) (e2 : InstanceNetworkTagRulesEngine)
    (h : (InstanceNetworkTagRulesEngine.mk doc none).find_policy_violations recs false =
      Except.ok (res, e2)) :
    ∀ v ∈ res.1, ∃ d, doc.rules.get? v.rule_index = some d ∧ v.rule_name = d.name := by
  unfold InstanceNetworkTagRulesEngine.find_policy_violations at h
  simp only at h
  unfold InstanceNetworkTagRulesEngine.build_rule_book at h
  cases hb : buildBook doc with
  | mk b err =>
    rw [hb] at h
    cases err with
    | some e => simp [Except.map] at h
    | none =>
      simp only [Except.map, Except.ok.injEq, Prod.mk.injEq] at h
      obtain ⟨hres, _⟩ := h
      subst hres
      intro v hv
      obtain ⟨r, hr, hvf⟩ := mem_chainFindViolations hv
      obtain ⟨rec, _, n, _, _, _, hveq⟩ := mem_find_violations hvf
      rw [InstanceNetworkTagRuleBook.get_resource_rules] at hr
      obtain ⟨⟨i, r2⟩, hpm, hpr⟩ := List.mem_map.mp hr
      have hpm2 : (i, r2) ∈ ((InstanceNetworkTagRuleBook.add_rules_from ⟨[]⟩
          doc.rules 0).1).resource_rules_map := by
        have hbb : InstanceNetworkTagRuleBook.add_rules_from ⟨[]⟩ doc.rules 0 = (b, none) := hb
        rw [hbb]
        exact hpm
      rcases add_rules_from_mem hpm2 with hc | ⟨k, d, hg, h1, h2, h3⟩
      · simp at hc
      · have hr2 : r2 = r := hpr
        have h2b : r.rule_index = 0 + k := hr2 ▸ h2
        have h3b : r.rule_name = d.name := hr2 ▸ h3
        refine ⟨d, ?_, ?_⟩
        · rw [hveq]
          simp only [Rule.mkViolation]
          rw [h2b]
          simpa using hg
        · rw [hveq]
          simp only [Rule.mkViolation]
          exact h3b

theorem claim_c7_witness :
    ∃ d, (⟨[sampleRuleDef]⟩ : RuleDefsDoc).rules.get? sampleViolation.rule_index = some d ∧
      sampleViolation.rule_name = d.name := by
  have happ := claim_c7 ⟨[sampleRuleDef]⟩ [sampleRec] _ _ rfl
  exact happ sampleViolation (by decide)

/-- C8: from the same definitions document, building the rule book twice
and then evaluating a batch gives exactly the result of building once and
evaluating: rebuilding replaces the book from scratch and evaluation is a
deterministic function of definitions and records. -/
theorem claim_c8 (doc : RuleDefsDoc) (recs : List InstanceNetworkTag)
    (b0 : Option InstanceNetworkTagRuleBook) :
    ((InstanceNetworkTagRulesEngine.mk doc b0).build_rule_book.bind (fun p =>
        p.2.build_rule_book.bind (fun q => q.2.find_policy_violations recs false)))
    = ((InstanceNetworkTagRulesEngine.mk doc b0).build_rule_book.bind (fun p =>
        p.2.find_policy_violations recs false)) := by
  unfold InstanceNetworkTagRulesEngine.build_rule_book
  cases hb : buildBook doc with
  | mk b err =>
    cases err with
    | some e => rfl
    | none =>
      simp only [Except.bind]
      rw [hb]

/-- C9: flattening produces exactly one output record per violation, with
`resource_id` equal to the violation's instance name, the four other
top-level fields copied, and a nested `violation_data` holding exactly
`project`, `network`, `tags`, `instance_name` and `raw_data`. -/
theorem claim_c9 (vs : List RuleViolation) :
    (flatten_violations vs).length = vs.length ∧
    ∀ (k : Nat) (v : RuleViolation), vs.get? k = some v →
      (flatten_violations vs).get? k = some
        { resource_id := v.instance_name,
          resource_type := v.resource_type,
          rule_index := v.rule_index,
          rule_name := v.rule_name,
          violation_type := v.violation_type,
          violation_data := { project := v.project, network := v.network, tags := v.tags,
                              instance_name := v.instance_name, raw_data := v.raw_data } } := by
  induction vs with
  | nil => exact ⟨rfl, fun k v h => by simp at h⟩
  | cons v0 rest ih =>
    refine ⟨by simpa [flatten_violations] using ih.1, fun k v h => ?_⟩
    cases k with
    | zero =>
      simp only [List.get?] at h
      injection h with h0
      subst h0
      rfl
    | succ k2 =>
      simp only [List.get?] at h
      simpa [flatten_violations] using ih.2 k2 v h

theorem claim_c9_witness :
    (flatten_violations [sampleViolation]).get? 0 = some
      { resource_id := sampleViolation.instance_name,
        resource_type := sampleViolation.resource_type,
        rule_index := sampleViolation.rule_index,
        rule_name := sampleViolation.rule_name,
        violation_type := sampleViolation.violation_type,
        violation_data := { project := sampleViolation.project,
                            network := sampleViolation.network,
                            tags := sampleViolation.tags,
                            instance_name := sampleViolation.instance_name,
                            raw_data := sampleViolation.raw_data } } :=
  (claim_c9 [sampleViolation]).2 0 sampleViolation rfl

/-- C2 counterexample: a batch whose first record has a non-conforming
network path.  The record's evaluation does fail, but the failure is not
confined to that record: the second record, which alone yields a violation,
is never evaluated, so the rest of the batch is aborted, contradicting the
claim as stated. -/
theorem claim_c2_counterexample :
    extractNetworkProject badPathRec.network = none ∧
    (sampleRule.find_violations [sampleRec]).1 ≠ [] ∧
    (sampleRule.find_violations [badPathRec, sampleRec]).1 = [] ∧
    (sampleRule.find_violations [badPathRec, sampleRec]).2 = some "AttributeError" := by
  decide

/-- C2 (amended): if a record's network path does not conform to the
structural pattern, evaluating the batch fails at that record (it is not
silently skipped), the violations already yielded for earlier records are
kept, and the remaining records of the batch are not evaluated. -/
theorem claim_c2 (r : Rule) (pre : List InstanceNetworkTag) (bad : InstanceNetworkTag)
    (post : List InstanceNetworkTag)
    (hbad : extractNetworkProject bad.network = none)
    (hpre : (r.find_violations pre).2 = none) :
    r.find_violations (pre ++ bad :: post) =
      ((r.find_violations pre).1, some "AttributeError") := by
  induction pre with
  | nil =>
    simp only [List.nil_append]
    conv_lhs => rw [Rule.find_violations]
    rw [hbad]
    rfl
  | cons rec rest ih =>
    rw [List.cons_append, Rule.find_violations]
    cases hx : extractNetworkProject rec.network with
    | none =>
      rw [Rule.find_violations, hx] at hpre
      simp at hpre
    | some pn =>
      obtain ⟨pj, n⟩ := pn
      have hpre2 : (r.find_violations rest).2 = none := by
        rw [Rule.find_violations, hx] at hpre
        simp only at hpre
        split at hpre
        · split at hpre
          · exact hpre
          · exact hpre
        · exact hpre
      have htail := ih hpre2
      rw [Rule.find_violations, hx]
      simp only [htail]
      split
      · split
        · rfl
        · rfl
      · rfl

theorem claim_c2_witness :
    sampleRule.find_violations ([sampleRec] ++ badPathRec :: [sampleRec]) =
      ((sampleRule.find_violations [sampleRec]).1, some "AttributeError") :=
  claim_c2 sampleRule [sampleRec] badPathRec [sampleRec] (by decide) (by decide)
